import Mathlib

/-!
Verification of the IronWatch USB monitor core against its specification.

The development shallowly embeds the device-change detection engine of
src/usb_monitor.rs and the security policy evaluator of src/config.rs:

* Rust String values are modeled as lists of characters; to_lowercase is a
  character-wise map and str::contains is an executable substring test.
* The HashMap previous-device and statistics maps are modeled as association
  lists with insert-replace semantics (HashMap iteration order is arbitrary;
  every property proved here is independent of entry order).
* The device identity key, which the Rust code renders as the string
  "vid:pid:bus:addr", is modeled as the 4-tuple of those numeric fields; the
  formatting is injective on the fields, so the tuple is an equivalent key.
* u8/u16/u32 counters are modeled as Nat.  The only subtraction the code
  performs is the guarded decrement of connection_count (if count > 0 then
  count -= 1), which coincides with truncated Nat subtraction.
* Utc::now() is an environment input and is passed explicitly as a Nat
  timestamp parameter.
* The fallible rusb calls (bus enumeration, descriptor reads, device open)
  are modeled as data describing the outcome of each call, so that the pure
  control flow of get_connected_devices / get_device_info over those
  outcomes is captured exactly.
-/

namespace IronWatch

/-- Case-insensitive lowering of a Rust string (String::to_lowercase),
modeled character-wise. -/
def lowerStr (s : List Char) : List Char := s.map Char.toLower

/-- True when the second list occurs at the start of the first
(str::starts_with, the building block of the substring test). -/
def beginsWith : List Char → List Char → Bool
  | _, [] => true
  | [], _ :: _ => false
  | a :: as, b :: bs => a == b && beginsWith as bs

/-- True when the second list occurs contiguously anywhere in the first
(str::contains). -/
def containsStr : List Char → List Char → Bool
  | [], needle => beginsWith [] needle
  | c :: t, needle => beginsWith (c :: t) needle || containsStr t needle

/-- ConnectionStatus from src/usb_monitor.rs. -/
inductive ConnectionStatus : Type
  | Connected
  | Disconnected
  | Reconnected
  | Blocked
deriving DecidableEq, Repr

/-- SecurityEventType from src/usb_monitor.rs. -/
inductive SecurityEventType : Type
  | DeviceBlocked
  | DeviceAllowed
  | RuleViolation
  | SuspiciousActivity
deriving DecidableEq, Repr

/-- SecurityAction from src/usb_monitor.rs. -/
inductive SecurityAction : Type
  | Blocked
  | Allowed
  | Warned
  | Logged
deriving DecidableEq, Repr

/-- UsbDeviceInfo from src/usb_monitor.rs: one device at one poll instant. -/
structure UsbDeviceInfo : Type where
  bus_number : Nat
  device_address : Nat
  vendor_id : Nat
  product_id : Nat
  device_version : Nat
  manufacturer : Option (List Char)
  product : Option (List Char)
  serial_number : Option (List Char)
  device_class : Nat
  device_subclass : Nat
  device_protocol : Nat
  max_packet_size : Nat
  num_configurations : Nat
  timestamp : Nat
  connection_status : ConnectionStatus
deriving DecidableEq, Repr

/-- Device identity key: the Rust create_device_key formats
(vendor_id, product_id, bus_number, device_address) into a string; the
formatting is injective on the four numeric fields, so the key is modeled
as the tuple itself. -/
abbrev DevKey : Type := Nat × Nat × Nat × Nat

/-- create_device_key from src/usb_monitor.rs. -/
def createDeviceKey (device : UsbDeviceInfo) : DevKey :=
  (device.vendor_id, device.product_id, device.bus_number, device.device_address)

/-- DeviceStatistics from src/usb_monitor.rs. -/
structure DeviceStatistics : Type where
  total_connections : Nat
  total_disconnections : Nat
  total_blocked : Nat
  first_seen : Nat
  last_seen : Nat
  connection_duration : Nat
  connection_count : Nat
deriving DecidableEq, Repr

/-- SecurityEvent from src/usb_monitor.rs. -/
structure SecurityEvent : Type where
  timestamp : Nat
  event_type : SecurityEventType
  device_info : UsbDeviceInfo
  reason : List Char
  action_taken : SecurityAction
deriving DecidableEq, Repr

/-- DeviceRule from src/config.rs: optional matcher fields, a reason,
a creation timestamp and an enabled flag. -/
structure DeviceRule : Type where
  vendor_id : Option Nat
  product_id : Option Nat
  device_class : Option Nat
  manufacturer : Option (List Char)
  product_name : Option (List Char)
  serial_number : Option (List Char)
  reason : List Char
  created_at : Nat
  enabled : Bool
deriving DecidableEq, Repr

/-- One numeric matcher field of DeviceRule::matches_device: an absent
field is a wildcard, a present field requires equality. -/
def matchNatField (ruleField : Option Nat) (deviceField : Nat) : Bool :=
  match ruleField with
  | some v => deviceField == v
  | none => true

/-- One string matcher field of DeviceRule::matches_device: an absent rule
field is a wildcard; a present rule field is a case-insensitive substring
test against the device string, and fails when the device string is absent. -/
def matchStrField (ruleField : Option (List Char)) (deviceField : Option (List Char)) : Bool :=
  match ruleField with
  | some s =>
    match deviceField with
    | some ds => containsStr (lowerStr ds) (lowerStr s)
    | none => false
  | none => true

/-- DeviceRule::matches_device from src/config.rs.  The Rust body is a
sequence of early returns, one per matcher field; that control flow is
exactly the conjunction of the per-field tests. -/
def matchesDevice (rule : DeviceRule) (device : UsbDeviceInfo) : Bool :=
  matchNatField rule.vendor_id device.vendor_id &&
  matchNatField rule.product_id device.product_id &&
  matchNatField rule.device_class device.device_class &&
  matchStrField rule.manufacturer device.manufacturer &&
  matchStrField rule.product_name device.product &&
  matchStrField rule.serial_number device.serial_number

/-- DeviceRulesConfig from src/config.rs. -/
structure DeviceRulesConfig : Type where
  blacklist_enabled : Bool
  whitelist_enabled : Bool
  blacklisted_devices : List DeviceRule
  whitelisted_devices : List DeviceRule
  auto_block_suspicious : Bool
  block_threshold : Nat
deriving DecidableEq, Repr

/-- The reason string produced by the whitelist branch of
ConfigManager::should_block_device. -/
def notInWhitelistReason : List Char := ("Device not in whitelist").toList

/-- The fallback reason string used by check_device_security when the
evaluator supplies none. -/
def unknownReasonStr : List Char := ("Unknown reason").toList

/-- The reason string recorded with an allowed-device security event. -/
def passedChecksReason : List Char := ("Device passed security checks").toList

/-- ConfigManager::should_block_device from src/config.rs.  If the
whitelist is enabled and no enabled whitelist rule matches, the device is
blocked at once (the blacklist is not consulted); otherwise the first
enabled blacklist rule that matches blocks, with its reason. -/
def shouldBlockDevice (cfg : DeviceRulesConfig) (device : UsbDeviceInfo) :
    Bool × Option (List Char) :=
  if cfg.whitelist_enabled &&
      !(cfg.whitelisted_devices.any (fun rule => rule.enabled && matchesDevice rule device)) then
    (true, some notInWhitelistReason)
  else
    if cfg.blacklist_enabled then
      match cfg.blacklisted_devices.find? (fun rule => rule.enabled && matchesDevice rule device) with
      | some rule => (true, some rule.reason)
      | none => (false, none)
    else
      (false, none)

/-- UsbDeviceChange from src/usb_monitor.rs. -/
inductive UsbDeviceChange : Type
  | Connected (info : UsbDeviceInfo)
  | Disconnected (info : UsbDeviceInfo)
  | Reconnected (info : UsbDeviceInfo)
  | Blocked (info : UsbDeviceInfo)
deriving DecidableEq, Repr

/-- Mutable state of UsbMonitor from src/usb_monitor.rs (the rusb Context
handle carries no algorithmic state and is left out; the optional
config_manager is modeled by the rule configuration it would hold). -/
structure MonitorState : Type where
  previous_devices : List (DevKey × UsbDeviceInfo)
  device_filter : Option (List Char)
  device_statistics : List (DevKey × DeviceStatistics)
  connection_history : List (Nat × DevKey × ConnectionStatus)
  security_events : List SecurityEvent
  config : Option DeviceRulesConfig
deriving DecidableEq, Repr

/-- The state UsbMonitor::new establishes: everything empty, no filter,
no configuration manager attached. -/
def emptyState : MonitorState :=
  { previous_devices := []
    device_filter := none
    device_statistics := []
    connection_history := []
    security_events := []
    config := none }

/-- Association-list lookup, modeling HashMap::get. -/
def lookupKV {α : Type} : List (DevKey × α) → DevKey → Option α
  | [], _ => none
  | e :: t, k => if e.1 = k then some e.2 else lookupKV t k

/-- Association-list insert with replacement, modeling HashMap::insert. -/
def insertKV {α : Type} : List (DevKey × α) → DevKey → α → List (DevKey × α)
  | [], k, v => [(k, v)]
  | e :: t, k, v => if e.1 = k then (k, v) :: t else e :: insertKV t k v

/-- The capped-buffer push both ring buffers use (security_events and
connection_history): push to the back, then evict the front element when
the length exceeds 1000. -/
def cappedPush {α : Type} (l : List α) (e : α) : List α :=
  let pushed := l ++ [e]
  if pushed.length > 1000 then pushed.drop 1 else pushed

/-- UsbMonitor::check_device_security from src/usb_monitor.rs: with a
configuration manager attached it evaluates the rules, appends exactly one
security event (DeviceBlocked or DeviceAllowed) to the capped log and
returns the verdict; with none attached it allows the device and records
nothing. -/
def checkDeviceSecurity (st : MonitorState) (device : UsbDeviceInfo) (now : Nat) :
    (Bool × Option (List Char) × SecurityAction) × MonitorState :=
  match st.config with
  | none => ((false, none, SecurityAction.Allowed), st)
  | some cfg =>
    let verdict := shouldBlockDevice cfg device
    if verdict.1 then
      let ev : SecurityEvent :=
        { timestamp := now
          event_type := SecurityEventType.DeviceBlocked
          device_info := device
          reason := (verdict.2).getD unknownReasonStr
          action_taken := SecurityAction.Blocked }
      ((true, verdict.2, SecurityAction.Blocked),
        { st with security_events := cappedPush st.security_events ev })
    else
      let ev : SecurityEvent :=
        { timestamp := now
          event_type := SecurityEventType.DeviceAllowed
          device_info := device
          reason := passedChecksReason
          action_taken := SecurityAction.Allowed }
      ((false, none, SecurityAction.Allowed),
        { st with security_events := cappedPush st.security_events ev })

/-- The statistics a key starts with on its first-ever record (the
or_insert default in update_device_statistics). -/
def initStats (now : Nat) : DeviceStatistics :=
  { total_connections := 0
    total_disconnections := 0
    total_blocked := 0
    first_seen := now
    last_seen := now
    connection_duration := 0
    connection_count := 0 }

/-- The counter update of update_device_statistics.  The Rust decrement of
connection_count is guarded (only when the count is positive), which is
truncated Nat subtraction. -/
def applyStatus (stats : DeviceStatistics) (status : ConnectionStatus) : DeviceStatistics :=
  match status with
  | ConnectionStatus.Connected =>
      { stats with total_connections := stats.total_connections + 1
                   connection_count := stats.connection_count + 1 }
  | ConnectionStatus.Disconnected =>
      { stats with total_disconnections := stats.total_disconnections + 1
                   connection_count := stats.connection_count - 1 }
  | ConnectionStatus.Reconnected =>
      { stats with total_connections := stats.total_connections + 1
                   connection_count := stats.connection_count + 1 }
  | ConnectionStatus.Blocked =>
      { stats with total_blocked := stats.total_blocked + 1 }

/-- The connection-duration recomputation of update_device_statistics: now
minus the timestamp of the first Connected history entry for the key, kept
unchanged when there is none.  The Rust conversion of a negative signed
duration to zero coincides with truncated Nat subtraction. -/
def connectionDurationOf (history : List (Nat × DevKey × ConnectionStatus)) (k : DevKey)
    (now : Nat) (old : Nat) : Nat :=
  match history.find? (fun e => decide (e.2.1 = k) && decide (e.2.2 = ConnectionStatus.Connected)) with
  | some e => now - e.1
  | none => old

/-- UsbMonitor::update_device_statistics from src/usb_monitor.rs: append a
history entry to the capped buffer, then update the per-key statistics. -/
def updateDeviceStatistics (st : MonitorState) (k : DevKey) (device : UsbDeviceInfo)
    (status : ConnectionStatus) (now : Nat) : MonitorState :=
  let history := cappedPush st.connection_history (now, k, status)
  let stats0 := (lookupKV st.device_statistics k).getD (initStats now)
  let stats1 := applyStatus { stats0 with last_seen := now } status
  let stats2 := { stats1 with
    connection_duration := connectionDurationOf history k now stats1.connection_duration }
  { st with connection_history := history
            device_statistics := insertKV st.device_statistics k stats2 }

/-- The current-device map monitor_changes builds from the snapshot,
keyed by identity key (HashMap::insert over the list). -/
def buildCurrentMap (current : List UsbDeviceInfo) : List (DevKey × UsbDeviceInfo) :=
  current.foldl (fun m d => insertKV m (createDeviceKey d) d) []

/-- The new/reconnected pass of monitor_changes over the current-device
map entries, threading the monitor state through the security checks.
Returns (changes, new devices, reconnected devices, state). -/
def processCurrent (st : MonitorState) (entries prev : List (DevKey × UsbDeviceInfo))
    (now : Nat) :
    List UsbDeviceChange × List (DevKey × UsbDeviceInfo) × List (DevKey × UsbDeviceInfo) ×
      MonitorState :=
  match entries with
  | [] => ([], [], [], st)
  | e :: rest =>
    match lookupKV prev e.1 with
    | none =>
      let sec := checkDeviceSecurity st e.2 now
      let newDevice :=
        if sec.1.1 then { e.2 with connection_status := ConnectionStatus.Blocked }
        else { e.2 with connection_status := ConnectionStatus.Connected }
      let change :=
        if sec.1.1 then UsbDeviceChange.Blocked newDevice
        else UsbDeviceChange.Connected newDevice
      let r := processCurrent sec.2 rest prev now
      (change :: r.1, (e.1, newDevice) :: r.2.1, r.2.2.1, r.2.2.2)
    | some prevDevice =>
      if prevDevice.connection_status = ConnectionStatus.Disconnected then
        let recon := { e.2 with connection_status := ConnectionStatus.Reconnected }
        let r := processCurrent st rest prev now
        (UsbDeviceChange.Reconnected recon :: r.1, r.2.1, (e.1, recon) :: r.2.2.1, r.2.2.2)
      else
        processCurrent st rest prev now

/-- UsbMonitor::monitor_changes from src/usb_monitor.rs, as a function of
the current snapshot (the result of get_connected_devices) and the poll
instant.  Pass one emits a Disconnected change for every previous key
absent from the current map; pass two emits Connected/Blocked for new keys
and Reconnected for keys whose previous snapshot was Disconnected;
statistics are then recorded for every emitted change, and the previous
state is replaced wholesale by the current map. -/
def monitorChanges (st : MonitorState) (current : List UsbDeviceInfo) (now : Nat) :
    List UsbDeviceChange × MonitorState :=
  let currentMap := buildCurrentMap current
  let disconnected := (st.previous_devices.filter
      (fun p => (lookupKV currentMap p.1).isNone)).map
      (fun p => (p.1, { p.2 with connection_status := ConnectionStatus.Disconnected
                                 timestamp := now }))
  let changesD := disconnected.map (fun p => UsbDeviceChange.Disconnected p.2)
  let pc := processCurrent st currentMap st.previous_devices now
  let st1 := pc.2.2.2
  let st2 := disconnected.foldl
      (fun s p => updateDeviceStatistics s p.1 p.2 ConnectionStatus.Disconnected now) st1
  let st3 := pc.2.1.foldl
      (fun s p => updateDeviceStatistics s p.1 p.2
        (if p.2.connection_status = ConnectionStatus.Blocked then ConnectionStatus.Blocked
         else ConnectionStatus.Connected) now) st2
  let st4 := pc.2.2.1.foldl
      (fun s p => updateDeviceStatistics s p.1 p.2 ConnectionStatus.Reconnected now) st3
  (changesD ++ pc.1, { st4 with previous_devices := currentMap })

/-- One per-string-descriptor read outcome: whether the descriptor carries
an index for this string, and what the ascii read would return. -/
structure StringSpec : Type where
  index : Option Nat
  readResult : Option (List Char)
deriving DecidableEq, Repr

/-- The per-string logic of get_string_descriptors: a string is present
only when its descriptor index exists and is positive and the read
succeeds. -/
def readString (sp : StringSpec) : Option (List Char) :=
  match sp.index with
  | some i => if i > 0 then sp.readResult else none
  | none => none

/-- The fixed-size device descriptor fields get_device_info reads. -/
structure DeviceDescriptorData : Type where
  vendor_id : Nat
  product_id : Nat
  version_major : Nat
  version_minor : Nat
  class_code : Nat
  sub_class_code : Nat
  protocol_code : Nat
  max_packet_size : Nat
  num_configurations : Nat
deriving DecidableEq, Repr

/-- One enumerated bus device together with the outcomes of the fallible
rusb calls on it: descriptorResult is none when device_descriptor() fails,
openOk is false when device.open() fails. -/
structure RawDevice : Type where
  bus_number : Nat
  device_address : Nat
  descriptorResult : Option DeviceDescriptorData
  openOk : Bool
  manufacturerSpec : StringSpec
  productSpec : StringSpec
  serialSpec : StringSpec
deriving DecidableEq, Repr

/-- UsbMonitor::get_string_descriptors from src/usb_monitor.rs. -/
def getStringDescriptors (rd : RawDevice) :
    Option (List Char) × Option (List Char) × Option (List Char) :=
  (readString rd.manufacturerSpec, readString rd.productSpec, readString rd.serialSpec)

/-- UsbMonitor::get_device_info from src/usb_monitor.rs: fails only when
the device descriptor read fails; a device that cannot be opened yields
none for all three string descriptors. -/
def getDeviceInfo (rd : RawDevice) (now : Nat) : Option UsbDeviceInfo :=
  match rd.descriptorResult with
  | none => none
  | some desc =>
    let strs := if rd.openOk then getStringDescriptors rd else (none, none, none)
    some
      { bus_number := rd.bus_number
        device_address := rd.device_address
        vendor_id := desc.vendor_id
        product_id := desc.product_id
        device_version := (desc.version_major <<< 8) ||| desc.version_minor
        manufacturer := strs.1
        product := strs.2.1
        serial_number := strs.2.2
        device_class := desc.class_code
        device_subclass := desc.sub_class_code
        device_protocol := desc.protocol_code
        max_packet_size := desc.max_packet_size
        num_configurations := desc.num_configurations
        timestamp := now
        connection_status := ConnectionStatus.Connected }

/-- The filter step of get_connected_devices, verbatim from the source: a
device passes when its product string contains the pattern
(case-insensitively); when the product string is absent, the fallback
branch compares the device's manufacturer string against itself (the
filter pattern is not consulted there); a device with neither string is
dropped. -/
def filterKeeps (filt : Option (List Char)) (info : UsbDeviceInfo) : Bool :=
  match filt with
  | none => true
  | some f =>
    match info.product with
    | some p => containsStr (lowerStr p) (lowerStr f)
    | none =>
      match info.manufacturer with
      | some m => containsStr (lowerStr m) (lowerStr m)
      | none => false

/-- Classified bus-level enumeration failure (error taxonomy of the spec). -/
inductive BusError : Type
  | accessDenied
  | notFound
  | other
deriving DecidableEq, Repr

/-- UsbMonitor::get_connected_devices from src/usb_monitor.rs, as a
function of the enumeration outcome: a bus-level failure propagates; a
per-device read failure only omits that device; surviving devices pass
through the filter. -/
def getConnectedDevices (filt : Option (List Char))
    (enumeration : Except BusError (List RawDevice)) (now : Nat) :
    Except BusError (List UsbDeviceInfo) :=
  match enumeration with
  | Except.error e => Except.error e
  | Except.ok devs =>
    Except.ok (devs.filterMap (fun rd =>
      match getDeviceInfo rd now with
      | some info => if filterKeeps filt info then some info else none
      | none => none))

/-- Counts the Connected changes in a batch. -/
def countConnected (cs : List UsbDeviceChange) : Nat :=
  cs.countP (fun c => match c with | UsbDeviceChange.Connected _ => true | _ => false)

/-- Counts the Disconnected changes in a batch. -/
def countDisconnected (cs : List UsbDeviceChange) : Nat :=
  cs.countP (fun c => match c with | UsbDeviceChange.Disconnected _ => true | _ => false)

/-- Counts the Reconnected changes in a batch. -/
def countReconnected (cs : List UsbDeviceChange) : Nat :=
  cs.countP (fun c => match c with | UsbDeviceChange.Reconnected _ => true | _ => false)

/-- Counts the Blocked changes in a batch. -/
def countBlocked (cs : List UsbDeviceChange) : Nat :=
  cs.countP (fun c => match c with | UsbDeviceChange.Blocked _ => true | _ => false)

/-- Counts the Connected and Reconnected entries of a status sequence. -/
def statusCountCR (seq : List ConnectionStatus) : Nat :=
  seq.countP (fun s => match s with
    | ConnectionStatus.Connected => true
    | ConnectionStatus.Reconnected => true
    | _ => false)

/-- Counts the Disconnected entries of a status sequence. -/
def statusCountD (seq : List ConnectionStatus) : Nat :=
  seq.countP (fun s => match s with | ConnectionStatus.Disconnected => true | _ => false)

/-- Counts the Blocked entries of a status sequence. -/
def statusCountB (seq : List ConnectionStatus) : Nat :=
  seq.countP (fun s => match s with | ConnectionStatus.Blocked => true | _ => false)

/-- The four statistics counters of one key, as the state holds them: zero
before the key's first record (the or_insert default). -/
def countersOfKey (st : MonitorState) (k : DevKey) : Nat × Nat × Nat × Nat :=
  match lookupKV st.device_statistics k with
  | some s => (s.total_connections, s.total_disconnections, s.total_blocked, s.connection_count)
  | none => (0, 0, 0, 0)

/-- The pure counter transition of one recorded status, in the order
(total_connections, total_disconnections, total_blocked, connection_count). -/
def applyC (c : Nat × Nat × Nat × Nat) (s : ConnectionStatus) : Nat × Nat × Nat × Nat :=
  match s with
  | ConnectionStatus.Connected => (c.1 + 1, c.2.1, c.2.2.1, c.2.2.2 + 1)
  | ConnectionStatus.Disconnected => (c.1, c.2.1 + 1, c.2.2.1, c.2.2.2 - 1)
  | ConnectionStatus.Reconnected => (c.1 + 1, c.2.1, c.2.2.1, c.2.2.2 + 1)
  | ConnectionStatus.Blocked => (c.1, c.2.1, c.2.2.1 + 1, c.2.2.2)

/-- A sequence of update_device_statistics calls for one key, starting
from the fresh monitor state. -/
def recordSeq (k : DevKey) (d : UsbDeviceInfo) (now : Nat) (seq : List ConnectionStatus) :
    MonitorState :=
  seq.foldl (fun s status => updateDeviceStatistics s k d status now) emptyState

/-- A sequence of update_device_statistics calls over arbitrary records
(key, device, status, instant). -/
def recordAll (st : MonitorState)
    (records : List (DevKey × UsbDeviceInfo × ConnectionStatus × Nat)) : MonitorState :=
  records.foldl (fun s r => updateDeviceStatistics s r.1 r.2.1 r.2.2.1 r.2.2.2) st

/-- The history entry one record appends: (timestamp, key, status). -/
def entryOf (r : DevKey × UsbDeviceInfo × ConnectionStatus × Nat) :
    Nat × DevKey × ConnectionStatus :=
  (r.2.2.2, r.1, r.2.2.1)

/-- A concrete device used by the closed witness and counterexample
statements. -/
def sampleDevice : UsbDeviceInfo :=
  { bus_number := 1
    device_address := 2
    vendor_id := 4660
    product_id := 1
    device_version := 256
    manufacturer := some (("Acme").toList)
    product := some (("Widget").toList)
    serial_number := none
    device_class := 0
    device_subclass := 0
    device_protocol := 0
    max_packet_size := 64
    num_configurations := 1
    timestamp := 0
    connection_status := ConnectionStatus.Connected }

/-- The identity key of the sample device. -/
def sampleKey : DevKey := createDeviceKey sampleDevice

/-- A second concrete device with a different identity key. -/
def otherDevice : UsbDeviceInfo :=
  { sampleDevice with vendor_id := 5000, device_address := 3,
                      product := some (("Gadget").toList) }

/-- The specification's reading of rule matching, written from the spec's
words for the refinement comparison: every present matcher field must
match (numeric fields by equality, string fields by case-insensitive
substring test), absent fields are wildcards, and a present string
matcher fails when the device string is absent. -/
def ruleMatchesSpec (rule : DeviceRule) (device : UsbDeviceInfo) : Prop :=
  (∀ v, rule.vendor_id = some v → device.vendor_id = v) ∧
  (∀ v, rule.product_id = some v → device.product_id = v) ∧
  (∀ v, rule.device_class = some v → device.device_class = v) ∧
  (∀ s, rule.manufacturer = some s →
      ∃ ds, device.manufacturer = some ds ∧ containsStr (lowerStr ds) (lowerStr s) = true) ∧
  (∀ s, rule.product_name = some s →
      ∃ ds, device.product = some ds ∧ containsStr (lowerStr ds) (lowerStr s) = true) ∧
  (∀ s, rule.serial_number = some s →
      ∃ ds, device.serial_number = some ds ∧ containsStr (lowerStr ds) (lowerStr s) = true)

/-- A monitor state holding the sample device as previously connected. -/
def c1State : MonitorState :=
  { emptyState with previous_devices := [(sampleKey, sampleDevice)] }

/-- A concrete blacklist rule matching the sample device by vendor id. -/
def sampleRule : DeviceRule :=
  { vendor_id := some 4660
    product_id := none
    device_class := none
    manufacturer := none
    product_name := none
    serial_number := none
    reason := ("test").toList
    created_at := 0
    enabled := true }

/-- A concrete rule configuration: whitelist enabled and empty, blacklist
enabled and holding the sample rule. -/
def sampleCfg : DeviceRulesConfig :=
  { blacklist_enabled := true
    whitelist_enabled := true
    blacklisted_devices := [sampleRule]
    whitelisted_devices := []
    auto_block_suspicious := false
    block_threshold := 5 }

/-- A concrete device descriptor. -/
def sampleDesc : DeviceDescriptorData :=
  { vendor_id := 4660
    product_id := 1
    version_major := 1
    version_minor := 0
    class_code := 0
    sub_class_code := 0
    protocol_code := 0
    max_packet_size := 64
    num_configurations := 1 }

/-- A concrete enumerated device that opens fine but carries no product
string descriptor (its manufacturer string is present). -/
def sampleRaw : RawDevice :=
  { bus_number := 1
    device_address := 2
    descriptorResult := some sampleDesc
    openOk := true
    manufacturerSpec := { index := some 1, readResult := some (("Acme").toList) }
    productSpec := { index := none, readResult := none }
    serialSpec := { index := none, readResult := none } }

/-- The device info the snapshot reader produces for sampleRaw. -/
def sampleRawInfo : UsbDeviceInfo := (getDeviceInfo sampleRaw 0).getD sampleDevice

/-- The sample configuration with whitelist mode disabled (blacklist only). -/
def blacklistOnlyCfg : DeviceRulesConfig := { sampleCfg with whitelist_enabled := false }

/-- A fresh monitor state with the blacklist-only configuration attached. -/
def c4State : MonitorState := { emptyState with config := some blacklistOnlyCfg }

/-! Helper lemmas about the embedded operations. -/

theorem beginsWith_refl (l : List Char) : beginsWith l l = true := by
  induction l with
  | nil => rfl
  | cons a t ih => simp [beginsWith, ih]

theorem containsStr_refl (l : List Char) : containsStr l l = true := by
  cases l with
  | nil => rfl
  | cons c t => simp [containsStr, beginsWith_refl]

theorem lookupKV_insert_self {α : Type} (m : List (DevKey × α)) (k : DevKey) (v : α) :
    lookupKV (insertKV m k v) k = some v := by
  induction m with
  | nil => simp [insertKV, lookupKV]
  | cons e t ih =>
    by_cases h : e.1 = k
    · simp [insertKV, h, lookupKV]
    · simp [insertKV, h, lookupKV, ih]

theorem lookupKV_eq_none_of_not_mem {α : Type} (m : List (DevKey × α)) (k : DevKey)
    (h : k ∉ m.map Prod.fst) : lookupKV m k = none := by
  induction m with
  | nil => rfl
  | cons e t ih =>
    simp only [List.map_cons, List.mem_cons] at h
    push_neg at h
    have hek : ¬ e.1 = k := fun hh => h.1 hh.symm
    simp [lookupKV, hek, ih h.2]

theorem lookupKV_exists_of_mem {α : Type} (m : List (DevKey × α)) (p : DevKey × α)
    (h : p ∈ m) : ∃ v, lookupKV m p.1 = some v := by
  induction m with
  | nil => simp at h
  | cons e t ih =>
    by_cases hek : e.1 = p.1
    · exact ⟨e.2, by simp [lookupKV, hek]⟩
    · rcases List.mem_cons.mp h with he | ht
      · exact absurd (he ▸ rfl) hek
      · obtain ⟨v, hv⟩ := ih ht
        exact ⟨v, by simp [lookupKV, hek, hv]⟩

theorem lookupKV_mem {α : Type} (m : List (DevKey × α)) (k : DevKey) (v : α)
    (h : lookupKV m k = some v) : (k, v) ∈ m := by
  induction m with
  | nil => simp [lookupKV] at h
  | cons e t ih =>
    by_cases hek : e.1 = k
    · simp only [lookupKV, if_pos hek] at h
      obtain rfl : e.2 = v := Option.some.inj h
      exact List.mem_cons.mpr (Or.inl (by rw [← hek]))
    · simp only [lookupKV, if_neg hek] at h
      exact List.mem_cons.mpr (Or.inr (ih h))

theorem mem_insertKV {α : Type} (m : List (DevKey × α)) (k : DevKey) (v : α)
    (x : DevKey × α) (h : x ∈ insertKV m k v) : x ∈ m ∨ x = (k, v) := by
  induction m with
  | nil => simp [insertKV] at h; right; exact h
  | cons e t ih =>
    by_cases hek : e.1 = k
    · simp only [insertKV, if_pos hek] at h
      rcases List.mem_cons.mp h with hx | hx
      · right; exact hx
      · left; exact List.mem_cons.mpr (Or.inr hx)
    · simp only [insertKV, if_neg hek] at h
      rcases List.mem_cons.mp h with hx | hx
      · left; exact List.mem_cons.mpr (Or.inl hx)
      · rcases ih hx with hx2 | hx2
        · left; exact List.mem_cons.mpr (Or.inr hx2)
        · right; exact hx2

theorem mem_buildCurrentMap_aux (C : List UsbDeviceInfo) :
    ∀ (acc : List (DevKey × UsbDeviceInfo)) (x : DevKey × UsbDeviceInfo),
      x ∈ C.foldl (fun m d => insertKV m (createDeviceKey d) d) acc →
      x ∈ acc ∨ x.2 ∈ C := by
  induction C with
  | nil => intro acc x h; simp at h; left; exact h
  | cons d C ih =>
    intro acc x h
    rcases ih (insertKV acc (createDeviceKey d) d) x h with h2 | h2
    · rcases mem_insertKV acc (createDeviceKey d) d x h2 with h3 | h3
      · left; exact h3
      · right; rw [h3]; exact List.mem_cons_self _ _
    · right; exact List.mem_cons.mpr (Or.inr h2)

theorem mem_buildCurrentMap (C : List UsbDeviceInfo) (x : DevKey × UsbDeviceInfo)
    (h : x ∈ buildCurrentMap C) : x.2 ∈ C := by
  rcases mem_buildCurrentMap_aux C [] x h with h2 | h2
  · simp at h2
  · exact h2

theorem insertKV_not_mem {α : Type} (m : List (DevKey × α)) (k : DevKey) (v : α)
    (h : k ∉ m.map Prod.fst) : insertKV m k v = m ++ [(k, v)] := by
  induction m with
  | nil => rfl
  | cons e t ih =>
    simp only [List.map_cons, List.mem_cons] at h
    push_neg at h
    have hek : ¬ e.1 = k := fun hh => h.1 hh.symm
    simp [insertKV, hek, ih h.2]

theorem buildCurrentMap_aux_eq (C : List UsbDeviceInfo) :
    ∀ acc : List (DevKey × UsbDeviceInfo),
      (∀ d ∈ C, createDeviceKey d ∉ acc.map Prod.fst) →
      (C.map createDeviceKey).Nodup →
      C.foldl (fun m d => insertKV m (createDeviceKey d) d) acc
        = acc ++ C.map (fun d => (createDeviceKey d, d)) := by
  induction C with
  | nil => intro acc _ _; simp
  | cons d C ih =>
    intro acc hacc hnd
    simp only [List.map_cons, List.nodup_cons] at hnd
    have hnew : createDeviceKey d ∉ acc.map Prod.fst :=
      hacc d (List.mem_cons_self _ _)
    have step : insertKV acc (createDeviceKey d) d = acc ++ [(createDeviceKey d, d)] :=
      insertKV_not_mem acc _ d hnew
    have hcond : ∀ d2 ∈ C, createDeviceKey d2 ∉ (acc ++ [(createDeviceKey d, d)]).map Prod.fst := by
      intro d2 hd2
      simp only [List.map_append, List.mem_append, List.map_cons, List.map_nil,
        List.mem_singleton]
      push_neg
      refine ⟨hacc d2 (List.mem_cons.mpr (Or.inr hd2)), ?_⟩
      intro heq
      exact hnd.1 (heq ▸ List.mem_map_of_mem createDeviceKey hd2)
    calc (d :: C).foldl (fun m d => insertKV m (createDeviceKey d) d) acc
        = C.foldl (fun m d => insertKV m (createDeviceKey d) d)
            (acc ++ [(createDeviceKey d, d)]) := by rw [List.foldl_cons, step]
      _ = (acc ++ [(createDeviceKey d, d)]) ++ C.map (fun d => (createDeviceKey d, d)) :=
            ih _ hcond hnd.2
      _ = acc ++ (d :: C).map (fun d => (createDeviceKey d, d)) := by simp

theorem buildCurrentMap_eq_of_nodup (C : List UsbDeviceInfo)
    (hN : (C.map createDeviceKey).Nodup) :
    buildCurrentMap C = C.map (fun d => (createDeviceKey d, d)) := by
  have := buildCurrentMap_aux_eq C [] (by simp) hN
  simpa [buildCurrentMap] using this

theorem cappedPush_eq {α : Type} (l : List α) (e : α) (h : l.length ≤ 1000) :
    cappedPush l e = (l ++ [e]).drop (l.length + 1 - 1000) := by
  unfold cappedPush
  simp only [List.length_append, List.length_cons, List.length_nil]
  by_cases h1 : l.length + (0 + 1) > 1000
  · rw [if_pos h1]
    have : l.length + 1 - 1000 = 1 := by omega
    rw [this]
  · rw [if_neg h1]
    have : l.length + 1 - 1000 = 0 := by omega
    rw [this, List.drop_zero]

theorem cappedPush_length_le {α : Type} (l : List α) (e : α) (h : l.length ≤ 1000) :
    (cappedPush l e).length ≤ 1000 := by
  rw [cappedPush_eq l e h]
  simp only [List.length_drop, List.length_append, List.length_cons, List.length_nil]
  omega

theorem foldl_cappedPush {α : Type} (l : List α) :
    ∀ acc : List α, acc.length ≤ 1000 →
      List.foldl cappedPush acc l = (acc ++ l).drop (acc.length + l.length - 1000) := by
  induction l with
  | nil =>
    intro acc h
    simp only [List.foldl_nil, List.append_nil, List.length_nil, Nat.add_zero]
    rw [Nat.sub_eq_zero_of_le h, List.drop_zero]
  | cons x l ih =>
    intro acc h
    rw [List.foldl_cons]
    by_cases hlt : acc.length < 1000
    · have step : cappedPush acc x = acc ++ [x] := by
        unfold cappedPush
        rw [if_neg (by simp; omega)]
      have hlen : (acc ++ [x]).length ≤ 1000 := by simp; omega
      rw [step, ih _ hlen]
      have hidx : (acc ++ [x]).length + l.length - 1000
          = acc.length + (x :: l).length - 1000 := by simp; omega
      rw [hidx, List.append_assoc, List.singleton_append]
    · have heq : acc.length = 1000 := by omega
      have step : cappedPush acc x = (acc ++ [x]).drop 1 := by
        unfold cappedPush
        rw [if_pos (by simp; omega)]
      have hlen : ((acc ++ [x]).drop 1).length ≤ 1000 := by
        simp [List.length_drop]; omega
      rw [step, ih _ hlen]
      have hsplit : (acc ++ [x]).drop 1 ++ l = ((acc ++ [x]) ++ l).drop 1 :=
        (List.drop_append_of_le_length (by simp)).symm
      rw [hsplit, List.drop_drop]
      have hidx1 : ((acc ++ [x]).drop 1).length + l.length - 1000 = l.length := by
        simp [List.length_drop]; omega
      have hidx2 : acc.length + (x :: l).length - 1000 = 1 + l.length := by
        simp; omega
      rw [hidx1, hidx2, List.append_assoc, List.singleton_append]

theorem updateStats_history (st : MonitorState) (k : DevKey) (d : UsbDeviceInfo)
    (status : ConnectionStatus) (now : Nat) :
    (updateDeviceStatistics st k d status now).connection_history
      = cappedPush st.connection_history (now, k, status) := rfl

theorem recordAll_history (records : List (DevKey × UsbDeviceInfo × ConnectionStatus × Nat)) :
    ∀ st : MonitorState,
      (recordAll st records).connection_history
        = List.foldl cappedPush st.connection_history (records.map entryOf) := by
  induction records with
  | nil => intro st; rfl
  | cons r t ih =>
    intro st
    show (recordAll (updateDeviceStatistics st r.1 r.2.1 r.2.2.1 r.2.2.2) t).connection_history = _
    rw [ih, updateStats_history]
    rfl

theorem statusCountCR_cons (s : ConnectionStatus) (l : List ConnectionStatus) :
    statusCountCR (s :: l)
      = statusCountCR l + (match s with
          | ConnectionStatus.Connected => 1
          | ConnectionStatus.Reconnected => 1
          | _ => 0) := by
  cases s <;> simp [statusCountCR, List.countP_cons]

theorem statusCountD_cons (s : ConnectionStatus) (l : List ConnectionStatus) :
    statusCountD (s :: l)
      = statusCountD l + (match s with | ConnectionStatus.Disconnected => 1 | _ => 0) := by
  cases s <;> simp [statusCountD, List.countP_cons]

theorem statusCountB_cons (s : ConnectionStatus) (l : List ConnectionStatus) :
    statusCountB (s :: l)
      = statusCountB l + (match s with | ConnectionStatus.Blocked => 1 | _ => 0) := by
  cases s <;> simp [statusCountB, List.countP_cons]

theorem countConnected_cons (c : UsbDeviceChange) (l : List UsbDeviceChange) :
    countConnected (c :: l)
      = countConnected l + (match c with | UsbDeviceChange.Connected _ => 1 | _ => 0) := by
  cases c <;> simp [countConnected, List.countP_cons]

theorem countDisconnected_cons (c : UsbDeviceChange) (l : List UsbDeviceChange) :
    countDisconnected (c :: l)
      = countDisconnected l + (match c with | UsbDeviceChange.Disconnected _ => 1 | _ => 0) := by
  cases c <;> simp [countDisconnected, List.countP_cons]

theorem countReconnected_cons (c : UsbDeviceChange) (l : List UsbDeviceChange) :
    countReconnected (c :: l)
      = countReconnected l + (match c with | UsbDeviceChange.Reconnected _ => 1 | _ => 0) := by
  cases c <;> simp [countReconnected, List.countP_cons]

theorem countBlocked_cons (c : UsbDeviceChange) (l : List UsbDeviceChange) :
    countBlocked (c :: l)
      = countBlocked l + (match c with | UsbDeviceChange.Blocked _ => 1 | _ => 0) := by
  cases c <;> simp [countBlocked, List.countP_cons]

theorem countersOfKey_update (st : MonitorState) (k : DevKey) (d : UsbDeviceInfo)
    (status : ConnectionStatus) (now : Nat) :
    countersOfKey (updateDeviceStatistics st k d status now) k
      = applyC (countersOfKey st k) status := by
  unfold countersOfKey updateDeviceStatistics
  rw [lookupKV_insert_self]
  cases hl : lookupKV st.device_statistics k with
  | none => cases status <;> simp [applyStatus, applyC, initStats]
  | some s => cases status <;> simp [applyStatus, applyC]

theorem countersOfKey_foldl (seq : List ConnectionStatus) (k : DevKey) (d : UsbDeviceInfo)
    (now : Nat) :
    ∀ st : MonitorState,
      countersOfKey (seq.foldl (fun s status => updateDeviceStatistics s k d status now) st) k
        = seq.foldl applyC (countersOfKey st k) := by
  induction seq with
  | nil => intro st; rfl
  | cons s t ih =>
    intro st
    rw [List.foldl_cons, List.foldl_cons, ih, countersOfKey_update]

theorem foldl_applyC (seq : List ConnectionStatus) :
    ∀ tc td tb cc : Nat,
      (∀ n, statusCountD (seq.take n) ≤ cc + statusCountCR (seq.take n)) →
      seq.foldl applyC (tc, td, tb, cc)
        = (tc + statusCountCR seq, td + statusCountD seq, tb + statusCountB seq,
           cc + statusCountCR seq - statusCountD seq) := by
  induction seq with
  | nil =>
    intro tc td tb cc _
    simp [statusCountCR, statusCountD, statusCountB]
  | cons s rest ih =>
    intro tc td tb cc h
    rw [List.foldl_cons]
    cases s with
    | Connected =>
      have ihr := ih (tc + 1) td tb (cc + 1) (fun n => by
        have hn := h (n + 1)
        simp [List.take_succ_cons, statusCountD_cons, statusCountCR_cons] at hn
        omega)
      simp only [applyC] at ihr ⊢
      rw [ihr]
      simp [statusCountD_cons, statusCountCR_cons, statusCountB_cons, Prod.mk.injEq]
      all_goals omega
    | Reconnected =>
      have ihr := ih (tc + 1) td tb (cc + 1) (fun n => by
        have hn := h (n + 1)
        simp [List.take_succ_cons, statusCountD_cons, statusCountCR_cons] at hn
        omega)
      simp only [applyC] at ihr ⊢
      rw [ihr]
      simp [statusCountD_cons, statusCountCR_cons, statusCountB_cons, Prod.mk.injEq]
      all_goals omega
    | Blocked =>
      have ihr := ih tc td (tb + 1) cc (fun n => by
        have hn := h (n + 1)
        simp [List.take_succ_cons, statusCountD_cons, statusCountCR_cons] at hn
        omega)
      simp only [applyC] at ihr ⊢
      rw [ihr]
      simp [statusCountD_cons, statusCountCR_cons, statusCountB_cons, Prod.mk.injEq]
      all_goals omega
    | Disconnected =>
      have h1 := h 1
      have hcc : 1 ≤ cc := by
        simp [List.take_succ_cons, List.take_zero, statusCountD_cons, statusCountCR_cons,
          statusCountD, statusCountCR, List.countP_nil] at h1
        omega
      have ihr := ih tc (td + 1) tb (cc - 1) (fun n => by
        have hn := h (n + 1)
        simp [List.take_succ_cons, statusCountD_cons, statusCountCR_cons] at hn
        omega)
      simp only [applyC] at ihr ⊢
      rw [ihr]
      simp [statusCountD_cons, statusCountCR_cons, statusCountB_cons, Prod.mk.injEq]
      all_goals omega

theorem processCurrent_all_new (prev : List (DevKey × UsbDeviceInfo)) (now : Nat)
    (entries : List (DevKey × UsbDeviceInfo)) :
    ∀ st : MonitorState,
      (∀ e ∈ entries, lookupKV prev e.1 = none) →
      countConnected (processCurrent st entries prev now).1
          + countBlocked (processCurrent st entries prev now).1 = entries.length ∧
      countReconnected (processCurrent st entries prev now).1 = 0 ∧
      countDisconnected (processCurrent st entries prev now).1 = 0 := by
  induction entries with
  | nil =>
    intro st _
    simp [processCurrent, countConnected, countBlocked, countReconnected, countDisconnected]
  | cons e rest ih =>
    intro st h
    have he : lookupKV prev e.1 = none := h e (List.mem_cons_self _ _)
    have ihr := ih ((checkDeviceSecurity st e.2 now).2)
      (fun e2 he2 => h e2 (List.mem_cons.mpr (Or.inr he2)))
    simp only [processCurrent, he]
    by_cases hb : (checkDeviceSecurity st e.2 now).1.1 = true
    · simp [hb, countConnected_cons, countDisconnected_cons, countReconnected_cons,
        countBlocked_cons]
      all_goals omega
    · simp only [Bool.not_eq_true] at hb
      simp [hb, countConnected_cons, countDisconnected_cons, countReconnected_cons,
        countBlocked_cons]
      all_goals omega

theorem processCurrent_steady (prev : List (DevKey × UsbDeviceInfo)) (now : Nat)
    (entries : List (DevKey × UsbDeviceInfo)) :
    ∀ st : MonitorState,
      (∀ e ∈ entries, ∃ w, lookupKV prev e.1 = some w ∧
        w.connection_status ≠ ConnectionStatus.Disconnected) →
      (processCurrent st entries prev now).1 = [] := by
  induction entries with
  | nil => intro st _; rfl
  | cons e rest ih =>
    intro st h
    obtain ⟨w, hw, hs⟩ := h e (List.mem_cons_self _ _)
    have ihr := ih st (fun e2 he2 => h e2 (List.mem_cons.mpr (Or.inr he2)))
    simp only [processCurrent, hw, if_neg hs]
    exact ihr

theorem monitorChanges_previous (st : MonitorState) (C : List UsbDeviceInfo) (now : Nat) :
    (monitorChanges st C now).2.previous_devices = buildCurrentMap C := rfl

theorem monitorChanges_changes (st : MonitorState) (C : List UsbDeviceInfo) (now : Nat) :
    (monitorChanges st C now).1
      = ((st.previous_devices.filter
            (fun p => (lookupKV (buildCurrentMap C) p.1).isNone)).map
            (fun p => UsbDeviceChange.Disconnected
              { p.2 with connection_status := ConnectionStatus.Disconnected,
                         timestamp := now }))
        ++ (processCurrent st (buildCurrentMap C) st.previous_devices now).1 := by
  simp [monitorChanges, List.map_map, Function.comp]

theorem countsOfDisconnectedMap (now : Nat) (l : List (DevKey × UsbDeviceInfo)) :
    countDisconnected (l.map (fun p => UsbDeviceChange.Disconnected
        { p.2 with connection_status := ConnectionStatus.Disconnected,
                   timestamp := now })) = l.length ∧
    countConnected (l.map (fun p => UsbDeviceChange.Disconnected
        { p.2 with connection_status := ConnectionStatus.Disconnected,
                   timestamp := now })) = 0 ∧
    countReconnected (l.map (fun p => UsbDeviceChange.Disconnected
        { p.2 with connection_status := ConnectionStatus.Disconnected,
                   timestamp := now })) = 0 ∧
    countBlocked (l.map (fun p => UsbDeviceChange.Disconnected
        { p.2 with connection_status := ConnectionStatus.Disconnected,
                   timestamp := now })) = 0 := by
  induction l with
  | nil =>
    simp [countDisconnected, countConnected, countReconnected, countBlocked]
  | cons p t ih =>
    simp only [List.map_cons, countDisconnected_cons, countConnected_cons,
      countReconnected_cons, countBlocked_cons, List.length_cons]
    exact ⟨by rw [ih.1], by rw [ih.2.1], by rw [ih.2.2.1], by rw [ih.2.2.2]⟩

theorem countConnected_append (a b : List UsbDeviceChange) :
    countConnected (a ++ b) = countConnected a + countConnected b :=
  List.countP_append _ a b

theorem countDisconnected_append (a b : List UsbDeviceChange) :
    countDisconnected (a ++ b) = countDisconnected a + countDisconnected b :=
  List.countP_append _ a b

theorem countReconnected_append (a b : List UsbDeviceChange) :
    countReconnected (a ++ b) = countReconnected a + countReconnected b :=
  List.countP_append _ a b

theorem countBlocked_append (a b : List UsbDeviceChange) :
    countBlocked (a ++ b) = countBlocked a + countBlocked b :=
  List.countP_append _ a b

theorem diff_counts_fresh (st : MonitorState) (C : List UsbDeviceInfo) (now : Nat)
    (hprev : st.previous_devices = [])
    (hN : (C.map createDeviceKey).Nodup) :
    countConnected (monitorChanges st C now).1 + countBlocked (monitorChanges st C now).1
        = C.length ∧
    countReconnected (monitorChanges st C now).1 = 0 ∧
    countDisconnected (monitorChanges st C now).1 = 0 := by
  rw [monitorChanges_changes, hprev]
  simp only [List.filter_nil, List.map_nil, List.nil_append]
  have hnew : ∀ e ∈ buildCurrentMap C,
      lookupKV ([] : List (DevKey × UsbDeviceInfo)) e.1 = none := fun _ _ => rfl
  have hc := processCurrent_all_new [] now (buildCurrentMap C) st hnew
  have hlen : (buildCurrentMap C).length = C.length := by
    rw [buildCurrentMap_eq_of_nodup C hN, List.length_map]
  exact ⟨by rw [hc.1, hlen], hc.2.1, hc.2.2⟩

/-! The claims. -/

/-- Claim C1, counterexample.  The claim states that after diff(A to empty),
a second diff with the same key set A emits a Reconnected change for every
key of A and never a Connected change.  At the concrete one-key state
c1State the first call emits one Disconnected change, but the second call
emits one Connected change and zero Reconnected changes, because the first
call replaced the previous-state map with the (empty) current map. -/
theorem reconnection_law_counterexample :
    countDisconnected (monitorChanges c1State [] 5).1 = 1 ∧
    countReconnected (monitorChanges (monitorChanges c1State [] 5).2 [sampleDevice] 6).1 = 0 ∧
    countConnected (monitorChanges (monitorChanges c1State [] 5).2 [sampleDevice] 6).1 = 1 := by
  decide

/-- Claim C1, amended.  diff(A to empty) emits a Disconnected change for
every key of A (and nothing else) and leaves the previous-state empty; the
subsequent diff(empty to A) therefore treats every device as new, emitting
exactly one Connected-or-Blocked change per device and zero Reconnected and
zero Disconnected changes.  (The claim's promised Reconnected changes never
occur, because monitor_changes replaces the previous map wholesale with the
current map, so the disconnected keys are not retained.) -/
theorem reconnection_law_amended (st : MonitorState) (C : List UsbDeviceInfo)
    (n1 n2 : Nat) (hN : (C.map createDeviceKey).Nodup) :
    countDisconnected (monitorChanges st [] n1).1 = st.previous_devices.length ∧
    (monitorChanges st [] n1).1.length = st.previous_devices.length ∧
    (monitorChanges st [] n1).2.previous_devices = [] ∧
    countConnected (monitorChanges (monitorChanges st [] n1).2 C n2).1
        + countBlocked (monitorChanges (monitorChanges st [] n1).2 C n2).1 = C.length ∧
    countReconnected (monitorChanges (monitorChanges st [] n1).2 C n2).1 = 0 ∧
    countDisconnected (monitorChanges (monitorChanges st [] n1).2 C n2).1 = 0 := by
  have hfresh := diff_counts_fresh (monitorChanges st [] n1).2 C n2
    (monitorChanges_previous st [] n1) hN
  have hfirst : (monitorChanges st [] n1).1
      = st.previous_devices.map (fun p => UsbDeviceChange.Disconnected
          { p.2 with connection_status := ConnectionStatus.Disconnected,
                     timestamp := n1 }) := by
    rw [monitorChanges_changes]
    have hfil : st.previous_devices.filter
        (fun p => (lookupKV (buildCurrentMap ([] : List UsbDeviceInfo)) p.1).isNone)
        = st.previous_devices := List.filter_eq_self.mpr (fun a _ => rfl)
    rw [hfil]
    exact List.append_nil _
  refine ⟨?_, ?_, monitorChanges_previous st [] n1, hfresh.1, hfresh.2.1, hfresh.2.2⟩
  · rw [hfirst]
    exact (countsOfDisconnectedMap n1 st.previous_devices).1
  · rw [hfirst, List.length_map]

/-- Claim C1, witness for the amended theorem at the concrete one-device
state c1State. -/
theorem reconnection_law_amended_witness :
    countDisconnected (monitorChanges c1State [] 5).1 = c1State.previous_devices.length ∧
    (monitorChanges c1State [] 5).1.length = c1State.previous_devices.length ∧
    (monitorChanges c1State [] 5).2.previous_devices = [] ∧
    countConnected (monitorChanges (monitorChanges c1State [] 5).2 [sampleDevice] 6).1
        + countBlocked (monitorChanges (monitorChanges c1State [] 5).2 [sampleDevice] 6).1
      = ([sampleDevice] : List UsbDeviceInfo).length ∧
    countReconnected (monitorChanges (monitorChanges c1State [] 5).2 [sampleDevice] 6).1 = 0 ∧
    countDisconnected (monitorChanges (monitorChanges c1State [] 5).2 [sampleDevice] 6).1 = 0 :=
  reconnection_law_amended c1State [sampleDevice] 5 6 (by decide)

/-- Claim C2, counterexample.  The claim states that after any sequence of
recorded transitions, total_connections minus total_disconnections equals
connection_count.  Recording Blocked then Disconnected for one key (a
blocked device that is unplugged, a reachable scenario) gives
total_connections = 0, total_disconnections = 1, connection_count = 0
(floored), so the difference is -1 while connection_count is 0. -/
theorem statistics_consistency_counterexample :
    ¬ (((countersOfKey (recordSeq sampleKey sampleDevice 7
            [ConnectionStatus.Blocked, ConnectionStatus.Disconnected]) sampleKey).1 : Int)
          - ((countersOfKey (recordSeq sampleKey sampleDevice 7
            [ConnectionStatus.Blocked, ConnectionStatus.Disconnected]) sampleKey).2.1 : Int)
        = ((countersOfKey (recordSeq sampleKey sampleDevice 7
            [ConnectionStatus.Blocked, ConnectionStatus.Disconnected]) sampleKey).2.2.2 : Int)) := by
  decide

/-- Claim C2, amended.  For sequences in which no prefix records more
Disconnected than Connected-plus-Reconnected transitions (so the guarded
decrement never floors), total_connections minus total_disconnections
equals connection_count and the difference is non-negative. -/
theorem statistics_consistency_amended (k : DevKey) (d : UsbDeviceInfo) (now : Nat)
    (seq : List ConnectionStatus)
    (h : ∀ n, statusCountD (seq.take n) ≤ statusCountCR (seq.take n)) :
    ((countersOfKey (recordSeq k d now seq) k).1 : Int)
        - ((countersOfKey (recordSeq k d now seq) k).2.1 : Int)
      = ((countersOfKey (recordSeq k d now seq) k).2.2.2 : Int) ∧
    0 ≤ ((countersOfKey (recordSeq k d now seq) k).1 : Int)
        - ((countersOfKey (recordSeq k d now seq) k).2.1 : Int) := by
  have hc : countersOfKey (recordSeq k d now seq) k
      = seq.foldl applyC (0, 0, 0, 0) := by
    have h0 := countersOfKey_foldl seq k d now emptyState
    have he : countersOfKey emptyState k = (0, 0, 0, 0) := rfl
    rw [recordSeq, h0, he]
  have hf := foldl_applyC seq 0 0 0 0 (fun n => by
    have := h n
    omega)
  have hle : statusCountD seq ≤ statusCountCR seq := by
    have := h seq.length
    rwa [List.take_length] at this
  rw [hc, hf]
  simp only [Nat.zero_add]
  constructor
  · omega
  · omega

/-- Claim C2, witness for the amended theorem on the sequence holding one
Connected transition. -/
theorem statistics_consistency_witness :
    ((countersOfKey (recordSeq sampleKey sampleDevice 3
          [ConnectionStatus.Connected]) sampleKey).1 : Int)
        - ((countersOfKey (recordSeq sampleKey sampleDevice 3
          [ConnectionStatus.Connected]) sampleKey).2.1 : Int)
      = ((countersOfKey (recordSeq sampleKey sampleDevice 3
          [ConnectionStatus.Connected]) sampleKey).2.2.2 : Int) ∧
    0 ≤ ((countersOfKey (recordSeq sampleKey sampleDevice 3
          [ConnectionStatus.Connected]) sampleKey).1 : Int)
        - ((countersOfKey (recordSeq sampleKey sampleDevice 3
          [ConnectionStatus.Connected]) sampleKey).2.1 : Int) :=
  statistics_consistency_amended sampleKey sampleDevice 3 [ConnectionStatus.Connected]
    (fun n => by
      match n with
      | 0 => decide
      | Nat.succ m =>
        rw [List.take_of_length_le (by simp)]
        decide)

/-- Claim C3.  When whitelist mode is enabled and the device matches no
enabled whitelist rule, should_block_device returns blocked with the
not-in-whitelist reason, for every blacklist contents and enabled state
(the blacklist fields are universally quantified and never consulted). -/
theorem whitelist_precedence (cfg : DeviceRulesConfig) (device : UsbDeviceInfo)
    (bl : List DeviceRule) (ben : Bool)
    (hw : cfg.whitelist_enabled = true)
    (hnm : cfg.whitelisted_devices.any (fun r => r.enabled && matchesDevice r device)
      = false) :
    shouldBlockDevice { cfg with blacklisted_devices := bl, blacklist_enabled := ben } device
      = (true, some notInWhitelistReason) := by
  simp [shouldBlockDevice, hw, hnm]

/-- Claim C3, witness: the sample device matches the enabled blacklist
rule, yet with the whitelist enabled and empty the verdict is the
whitelist block. -/
theorem whitelist_precedence_witness :
    shouldBlockDevice
        { sampleCfg with blacklisted_devices := [sampleRule], blacklist_enabled := true }
        sampleDevice
      = (true, some notInWhitelistReason) :=
  whitelist_precedence sampleCfg sampleDevice [sampleRule] true rfl rfl

/-- Claim C4, counterexample.  The claim states that every security
evaluation of a newly-connected device appends exactly one SecurityEvent.
With no configuration manager attached (the state UsbMonitor::new creates,
and no caller in the repository ever attaches one), check_device_security
appends nothing: the log stays empty instead of growing by one. -/
theorem security_event_logging_counterexample :
    (checkDeviceSecurity emptyState sampleDevice 3).2.security_events.length
      ≠ emptyState.security_events.length + 1 := by
  decide

/-- Claim C4, amended.  When a configuration manager is attached and the
log is within its cap, check_device_security appends exactly one
SecurityEvent — DeviceBlocked when the verdict is block, DeviceAllowed
otherwise — to the back of the log, evicting the front entry only when the
cap of 1000 would be exceeded, so the log never exceeds 1000 entries.
With no configuration manager attached no event is appended. -/
theorem security_event_logging_amended (st : MonitorState) (cfg : DeviceRulesConfig)
    (d : UsbDeviceInfo) (now : Nat)
    (hc : st.config = some cfg) (hlen : st.security_events.length ≤ 1000) :
    ∃ ev : SecurityEvent,
      (checkDeviceSecurity st d now).2.security_events
        = (st.security_events ++ [ev]).drop (st.security_events.length + 1 - 1000) ∧
      ev.event_type = (if (shouldBlockDevice cfg d).1 = true
          then SecurityEventType.DeviceBlocked else SecurityEventType.DeviceAllowed) ∧
      (checkDeviceSecurity st d now).2.security_events.length ≤ 1000 := by
  by_cases hb : (shouldBlockDevice cfg d).1 = true
  · refine ⟨{ timestamp := now
              event_type := SecurityEventType.DeviceBlocked
              device_info := d
              reason := ((shouldBlockDevice cfg d).2).getD unknownReasonStr
              action_taken := SecurityAction.Blocked }, ?_, by simp [hb], ?_⟩
    · simp only [checkDeviceSecurity, hc, hb, if_true]
      exact cappedPush_eq _ _ hlen
    · simp only [checkDeviceSecurity, hc, hb, if_true]
      exact cappedPush_length_le _ _ hlen
  · refine ⟨{ timestamp := now
              event_type := SecurityEventType.DeviceAllowed
              device_info := d
              reason := passedChecksReason
              action_taken := SecurityAction.Allowed }, ?_, by simp [hb], ?_⟩
    · simp only [checkDeviceSecurity, hc, hb, if_false]
      exact cappedPush_eq _ _ hlen
    · simp only [checkDeviceSecurity, hc, hb, if_false]
      exact cappedPush_length_le _ _ hlen

/-- Claim C4, witness for the amended theorem: the blacklist-only
configuration blocks the sample device and one DeviceBlocked event lands
in the log. -/
theorem security_event_logging_witness :
    ∃ ev : SecurityEvent,
      (checkDeviceSecurity c4State sampleDevice 9).2.security_events
        = (c4State.security_events ++ [ev]).drop (c4State.security_events.length + 1 - 1000) ∧
      ev.event_type = (if (shouldBlockDevice blacklistOnlyCfg sampleDevice).1 = true
          then SecurityEventType.DeviceBlocked else SecurityEventType.DeviceAllowed) ∧
      (checkDeviceSecurity c4State sampleDevice 9).2.security_events.length ≤ 1000 :=
  security_event_logging_amended c4State blacklistOnlyCfg sampleDevice 9 rfl (by decide)

/-- Claim C5.  When a filter pattern is set and an enumerated device's
product string is absent but its manufacturer string is present,
get_connected_devices includes the device regardless of the pattern: the
fallback branch compares the manufacturer string against itself, which
always succeeds. -/
theorem manufacturer_fallback_included (filt : List Char) (devs : List RawDevice)
    (rd : RawDevice) (info : UsbDeviceInfo) (m : List Char) (now : Nat)
    (hmem : rd ∈ devs) (hinfo : getDeviceInfo rd now = some info)
    (hprod : info.product = none) (hman : info.manufacturer = some m) :
    ∃ l, getConnectedDevices (some filt) (Except.ok devs) now = Except.ok l ∧ info ∈ l := by
  refine ⟨_, rfl, ?_⟩
  refine List.mem_filterMap.mpr ⟨rd, hmem, ?_⟩
  simp [hinfo, filterKeeps, hprod, hman, containsStr_refl]

/-- Claim C5, witness: the sample raw device has no product string, its
manufacturer string does not contain the pattern, yet it is included. -/
theorem manufacturer_fallback_included_witness :
    ∃ l, getConnectedDevices (some (("Logi").toList)) (Except.ok [sampleRaw]) 0
          = Except.ok l ∧ sampleRawInfo ∈ l :=
  manufacturer_fallback_included (("Logi").toList) [sampleRaw] sampleRaw sampleRawInfo
    (("Acme").toList) 0 (List.mem_singleton.mpr rfl) rfl rfl rfl

/-- Claim C6.  For a previous state and a current snapshot with disjoint
identity key sets (and distinct keys within the snapshot, as a bus
enumeration guarantees), one diff pass emits exactly one Disconnected
change per previous entry, exactly one Connected-or-Blocked change per
current device, and zero Reconnected changes. -/
theorem disjoint_diff_counts (st : MonitorState) (C : List UsbDeviceInfo) (now : Nat)
    (hN : (C.map createDeviceKey).Nodup)
    (hD : ∀ k ∈ st.previous_devices.map Prod.fst, k ∉ C.map createDeviceKey) :
    countDisconnected (monitorChanges st C now).1 = st.previous_devices.length ∧
    countConnected (monitorChanges st C now).1 + countBlocked (monitorChanges st C now).1
        = C.length ∧
    countReconnected (monitorChanges st C now).1 = 0 := by
  have hmap := buildCurrentMap_eq_of_nodup C hN
  have hkeys : (buildCurrentMap C).map Prod.fst = C.map createDeviceKey := by
    rw [hmap, List.map_map]
    rfl
  have hfil : st.previous_devices.filter
      (fun p => (lookupKV (buildCurrentMap C) p.1).isNone) = st.previous_devices := by
    apply List.filter_eq_self.mpr
    intro p hp
    have hnot : p.1 ∉ (buildCurrentMap C).map Prod.fst := by
      rw [hkeys]
      exact hD p.1 (List.mem_map_of_mem Prod.fst hp)
    rw [lookupKV_eq_none_of_not_mem _ _ hnot]
    rfl
  have hnew : ∀ e ∈ buildCurrentMap C, lookupKV st.previous_devices e.1 = none := by
    intro e he
    apply lookupKV_eq_none_of_not_mem
    intro hmem
    have hkc : e.1 ∈ C.map createDeviceKey := by
      rw [← hkeys]
      exact List.mem_map_of_mem Prod.fst he
    exact hD e.1 hmem hkc
  have hc := processCurrent_all_new st.previous_devices now (buildCurrentMap C) st hnew
  have hlen : (buildCurrentMap C).length = C.length := by
    rw [hmap, List.length_map]
  have hmaps := countsOfDisconnectedMap now st.previous_devices
  rw [monitorChanges_changes, hfil]
  refine ⟨?_, ?_, ?_⟩
  · rw [countDisconnected_append, hmaps.1, hc.2.2]
    omega
  · rw [countConnected_append, countBlocked_append, hmaps.2.1, hmaps.2.2.2]
    omega
  · rw [countReconnected_append, hmaps.2.2.1, hc.2.1]

/-- Claim C6, witness at a one-entry previous state and a one-device
snapshot with a different key. -/
theorem disjoint_diff_counts_witness :
    countDisconnected (monitorChanges c1State [otherDevice] 4).1
        = c1State.previous_devices.length ∧
    countConnected (monitorChanges c1State [otherDevice] 4).1
        + countBlocked (monitorChanges c1State [otherDevice] 4).1
      = ([otherDevice] : List UsbDeviceInfo).length ∧
    countReconnected (monitorChanges c1State [otherDevice] 4).1 = 0 :=
  disjoint_diff_counts c1State [otherDevice] 4 (by decide) (by decide)

/-- Claim C7.  Running diff a second time with the same current snapshot
(immediately after the first run replaced the previous state) emits zero
changes: steady state produces no events. -/
theorem diff_idempotent (st : MonitorState) (C : List UsbDeviceInfo) (n1 n2 : Nat)
    (hC : ∀ d ∈ C, d.connection_status = ConnectionStatus.Connected) :
    (monitorChanges (monitorChanges st C n1).2 C n2).1 = [] := by
  rw [monitorChanges_changes, monitorChanges_previous]
  have hfil : (buildCurrentMap C).filter
      (fun p => (lookupKV (buildCurrentMap C) p.1).isNone) = [] := by
    apply List.filter_eq_nil_iff.mpr
    intro p hp
    obtain ⟨v, hv⟩ := lookupKV_exists_of_mem _ p hp
    simp [hv]
  have hsteady : (processCurrent (monitorChanges st C n1).2 (buildCurrentMap C)
      (buildCurrentMap C) n2).1 = [] := by
    apply processCurrent_steady
    intro e he
    obtain ⟨w, hw⟩ := lookupKV_exists_of_mem _ e he
    refine ⟨w, hw, ?_⟩
    have hmem := lookupKV_mem _ _ _ hw
    have hwC := mem_buildCurrentMap C (e.1, w) hmem
    rw [hC w hwC]
    decide
  rw [hfil, hsteady]
  rfl

/-- Claim C7, witness at the one-device snapshot. -/
theorem diff_idempotent_witness :
    (monitorChanges (monitorChanges emptyState [sampleDevice] 1).2 [sampleDevice] 2).1 = [] :=
  diff_idempotent emptyState [sampleDevice] 1 2 (by decide)

/-- Claim C8.  After more than 1000 recorded connection-history entries
starting from the fresh state, the history buffer holds exactly 1000
entries, and they are precisely the most recent 1000 records in order
(the oldest entries are evicted first). -/
theorem bounded_history (records : List (DevKey × UsbDeviceInfo × ConnectionStatus × Nat))
    (h : records.length > 1000) :
    (recordAll emptyState records).connection_history.length = 1000 ∧
    (recordAll emptyState records).connection_history
      = (records.map entryOf).drop (records.length - 1000) := by
  have hh : (recordAll emptyState records).connection_history
      = List.foldl cappedPush [] (records.map entryOf) :=
    recordAll_history records emptyState
  have hf := foldl_cappedPush (records.map entryOf)
    ([] : List (Nat × DevKey × ConnectionStatus)) (by simp)
  rw [hh, hf]
  simp only [List.nil_append, List.length_nil, Nat.zero_add, List.length_map]
  constructor
  · rw [List.length_drop, List.length_map]
    omega
  · trivial

/-- Claim C8, witness with 1001 identical records. -/
theorem bounded_history_witness :
    (recordAll emptyState (List.replicate 1001
        (sampleKey, sampleDevice, ConnectionStatus.Connected, 0))).connection_history.length
      = 1000 ∧
    (recordAll emptyState (List.replicate 1001
        (sampleKey, sampleDevice, ConnectionStatus.Connected, 0))).connection_history
      = ((List.replicate 1001
          (sampleKey, sampleDevice, ConnectionStatus.Connected, 0)).map entryOf).drop
          ((List.replicate 1001
            (sampleKey, sampleDevice, ConnectionStatus.Connected, 0)).length - 1000) :=
  bounded_history (List.replicate 1001 (sampleKey, sampleDevice, ConnectionStatus.Connected, 0))
    (by rw [List.length_replicate]; decide)

theorem matchNatField_iff (rf : Option Nat) (dv : Nat) :
    matchNatField rf dv = true ↔ ∀ v, rf = some v → dv = v := by
  cases rf <;> simp [matchNatField]

theorem matchStrField_iff (rf dv : Option (List Char)) :
    matchStrField rf dv = true ↔
      ∀ s, rf = some s →
        ∃ ds, dv = some ds ∧ containsStr (lowerStr ds) (lowerStr s) = true := by
  cases rf <;> cases dv <;> simp [matchStrField]

/-- Claim C9.  A rule matches a device if and only if every present
matcher field matches: numeric fields by equality, string fields by
case-insensitive substring test, absent fields as wildcards, and a present
string matcher failing when the device string is absent. -/
theorem rule_matching_characterization (rule : DeviceRule) (device : UsbDeviceInfo) :
    matchesDevice rule device = true ↔ ruleMatchesSpec rule device := by
  simp [matchesDevice, ruleMatchesSpec, matchNatField_iff, matchStrField_iff,
    and_assoc]

/-- Claim C10.  Error containment of the snapshot reader: a bus-level
enumeration failure propagates as the error; with a successful enumeration
the call returns Ok, its members are exactly the devices whose individual
descriptor read succeeded (and passed the filter), so one failing device
is omitted without affecting the rest; and a device that cannot be opened
still yields a device record, with none for all three string
descriptors. -/
theorem failure_isolation (filt : Option (List Char)) (now : Nat)
    (devs : List RawDevice) (e : BusError) :
    getConnectedDevices filt (Except.error e) now = Except.error e ∧
    (∃ l, getConnectedDevices filt (Except.ok devs) now = Except.ok l ∧
      (∀ info ∈ l, ∃ rd ∈ devs, getDeviceInfo rd now = some info ∧
        filterKeeps filt info = true) ∧
      (∀ rd ∈ devs, ∀ info : UsbDeviceInfo, getDeviceInfo rd now = some info →
        filterKeeps filt info = true → info ∈ l)) ∧
    (∀ rd : RawDevice, rd.openOk = false → rd.descriptorResult ≠ none →
      ∃ info : UsbDeviceInfo, getDeviceInfo rd now = some info ∧
        info.manufacturer = none ∧ info.product = none ∧ info.serial_number = none) := by
  refine ⟨rfl, ⟨_, rfl, ?_, ?_⟩, ?_⟩
  · intro info hinfo
    obtain ⟨rd, hrd, hf⟩ := List.mem_filterMap.mp hinfo
    cases hg : getDeviceInfo rd now with
    | none =>
      rw [hg] at hf
      exact Option.noConfusion hf
    | some i =>
      rw [hg] at hf
      change (if filterKeeps filt i = true then some i else none) = some info at hf
      by_cases hk : filterKeeps filt i = true
      · rw [if_pos hk] at hf
        obtain rfl : i = info := Option.some.inj hf
        exact ⟨rd, hrd, hg, hk⟩
      · rw [if_neg hk] at hf
        exact Option.noConfusion hf
  · intro rd hrd info hg hk
    exact List.mem_filterMap.mpr ⟨rd, hrd, by simp [hg, hk]⟩
  · intro rd ho hd
    cases hdr : rd.descriptorResult with
    | none => exact absurd hdr hd
    | some desc =>
      exact ⟨{ bus_number := rd.bus_number
               device_address := rd.device_address
               vendor_id := desc.vendor_id
               product_id := desc.product_id
               device_version := (desc.version_major <<< 8) ||| desc.version_minor
               manufacturer := none
               product := none
               serial_number := none
               device_class := desc.class_code
               device_subclass := desc.sub_class_code
               device_protocol := desc.protocol_code
               max_packet_size := desc.max_packet_size
               num_configurations := desc.num_configurations
               timestamp := now
               connection_status := ConnectionStatus.Connected },
        by simp [getDeviceInfo, hdr, ho], rfl, rfl, rfl⟩

end IronWatch
